import Mathlib

/-!
Verification development for the ironic bare-metal client library.

The repository sources provide `ironicclient/v1/resource_fields.py`
(the `Resource` field/label registry) together with the unit tests of the
HTTP client (`ironicclient/tests/test_http.py`).  The HTTP client module
itself (`HTTPClient._make_connection_url` and the error mapper invoked on
non-2xx responses) is not among the provided sources, so those two
components are modelled from the specification; the `Resource` class is
embedded directly from its source.
-/

namespace Ironic

/-! ## URL normalizer (modelled from the spec) -/

/-- Modelled from the spec: `HTTPClient._make_connection_url` and the
endpoint parsing of `ironicclient/common/http.py` are not among the
provided sources (only their tests are).  This helper scans a URL for the
first occurrence of the scheme separator `://` and returns the remainder
after it, or `none` when the separator does not occur. -/
def afterSchemeSep : List Char → Option (List Char)
  | [] => none
  | c :: rest =>
    if c = ':' ∧ rest.take 2 = ['/', '/'] then some (rest.drop 2)
    else afterSchemeSep rest

/-- Modelled from the spec: the path component of a base endpoint.  The
scheme/host portion is discarded: after the scheme separator the host runs
up to the first slash, and the path is everything from that slash on.  A
string without a scheme separator is taken as a bare path (best effort on
malformed input, as the spec requires). -/
def urlPath (b : List Char) : List Char :=
  match afterSchemeSep b with
  | some rest => rest.dropWhile (fun c => !(c == '/'))
  | none => b

/-- Remove every trailing slash. -/
def rstripSlash (l : List Char) : List Char :=
  (l.reverse.dropWhile (fun c => c == '/')).reverse

/-- Remove every leading slash. -/
def lstripSlash (l : List Char) : List Char :=
  l.dropWhile (fun c => c == '/')

/-- Modelled from the spec: `HTTPClient._make_connection_url` is not among
the provided sources.  Per the spec it discards the scheme/host portion of
the base endpoint and joins the base's path component with the relative
path using exactly one separating slash, regardless of trailing slashes on
the base or leading slashes on the path. -/
def make_connection_url (base url : List Char) : List Char :=
  rstripSlash (urlPath base) ++ '/' :: lstripSlash url

/-! ## Error mapper (modelled from the spec) -/

/-- Modelled from the spec: the decoded JSON error envelope carried in the
`error_message` field of a non-2xx response body: a `faultstring` and an
optional `debuginfo`, either of which may be absent (JSON null). -/
structure ErrorEnvelope where
  faultstring : Option String
  debuginfo : Option String
  deriving DecidableEq, Repr

/-- Modelled from the spec: the error kinds, one per well-known HTTP
status code, with a fallback variant carrying the raw code. -/
inductive ErrorKind where
  | badRequest
  | unauthorized
  | forbidden
  | notFound
  | methodNotAllowed
  | notAcceptable
  | conflict
  | overLimit
  | unsupportedMediaType
  | internalServerError
  | notImplemented
  | badGateway
  | serviceUnavailable
  | httpError (code : Nat)
  deriving DecidableEq, Repr

/-- Modelled from the spec: the error kind is selected purely from the
numeric status code; unrecognized codes map to the generic kind carrying
the raw code. -/
def kindOf (c : Nat) : ErrorKind :=
  if c = 400 then .badRequest
  else if c = 401 then .unauthorized
  else if c = 403 then .forbidden
  else if c = 404 then .notFound
  else if c = 405 then .methodNotAllowed
  else if c = 406 then .notAcceptable
  else if c = 409 then .conflict
  else if c = 413 then .overLimit
  else if c = 415 then .unsupportedMediaType
  else if c = 500 then .internalServerError
  else if c = 501 then .notImplemented
  else if c = 502 then .badGateway
  else if c = 503 then .serviceUnavailable
  else .httpError c

/-- Modelled from the spec: the human-readable name of an error kind, used
in the generic fallback message. -/
def reasonPhrase : ErrorKind → String
  | .badRequest => "HTTPBadRequest"
  | .unauthorized => "HTTPUnauthorized"
  | .forbidden => "HTTPForbidden"
  | .notFound => "HTTPNotFound"
  | .methodNotAllowed => "HTTPMethodNotAllowed"
  | .notAcceptable => "HTTPNotAcceptable"
  | .conflict => "HTTPConflict"
  | .overLimit => "HTTPOverLimit"
  | .unsupportedMediaType => "HTTPUnsupportedMediaType"
  | .internalServerError => "HTTPInternalServerError"
  | .notImplemented => "HTTPNotImplemented"
  | .badGateway => "HTTPBadGateway"
  | .serviceUnavailable => "HTTPServiceUnavailable"
  | .httpError _ => "HTTPError"

/-- Modelled from the spec: the generic fallback message
`<ReasonPhrase> (HTTP <code>)`. -/
def genericMessage (status : Nat) : String :=
  reasonPhrase (kindOf status) ++ " (HTTP " ++ toString status ++ ")"

/-- Modelled from the spec: the message of the mapped error.  A present,
non-empty `faultstring` is the message, with `"\n" ++ debuginfo` appended
when `debuginfo` is present; an absent or malformed envelope (`none`), an
absent `faultstring`, or an empty (falsy) `faultstring` all fall back to
the generic message.  The function is total: mapping never raises. -/
def errorMessage (status : Nat) (env : Option ErrorEnvelope) : String :=
  match env with
  | none => genericMessage status
  | some e =>
    match e.faultstring with
    | none => genericMessage status
    | some fs =>
      if fs = "" then genericMessage status
      else
        match e.debuginfo with
        | none => fs
        | some d => fs ++ "\n" ++ d

/-- Modelled from the spec: the pure mapping from (status, decoded body
envelope) to (error kind, message).  Total, hence never raises. -/
def mapError (status : Nat) (env : Option ErrorEnvelope) : ErrorKind × String :=
  (kindOf status, errorMessage status env)

/-! ## Resource field registry
Embedded from `src/ironicclient/v1/resource_fields.py`. -/

/-- The global `Resource.FIELDS` table mapping field ids to labels,
transcribed from `resource_fields.py` lines 33-112. -/
def FIELDS : List (String × String) :=
  [("address", "Address"),
   ("async", "Async"),
   ("attach", "Response is attachment"),
   ("boot_index", "Boot Index"),
   ("chassis_uuid", "Chassis UUID"),
   ("clean_step", "Clean Step"),
   ("console_enabled", "Console Enabled"),
   ("created_at", "Created At"),
   ("default_boot_interface", "Default Boot Interface"),
   ("default_console_interface", "Default Console Interface"),
   ("default_deploy_interface", "Default Deploy Interface"),
   ("default_inspect_interface", "Default Inspect Interface"),
   ("default_management_interface", "Default Management Interface"),
   ("default_network_interface", "Default Network Interface"),
   ("default_power_interface", "Default Power Interface"),
   ("default_raid_interface", "Default RAID Interface"),
   ("default_storage_interface", "Default Storage Interface"),
   ("default_vendor_interface", "Default Vendor Interface"),
   ("description", "Description"),
   ("driver", "Driver"),
   ("driver_info", "Driver Info"),
   ("driver_internal_info", "Driver Internal Info"),
   ("enabled_boot_interfaces", "Enabled Boot Interfaces"),
   ("enabled_console_interfaces", "Enabled Console Interfaces"),
   ("enabled_deploy_interfaces", "Enabled Deploy Interfaces"),
   ("enabled_inspect_interfaces", "Enabled Inspect Interfaces"),
   ("enabled_management_interfaces", "Enabled Management Interfaces"),
   ("enabled_network_interfaces", "Enabled Network Interfaces"),
   ("enabled_power_interfaces", "Enabled Power Interfaces"),
   ("enabled_raid_interfaces", "Enabled RAID Interfaces"),
   ("enabled_storage_interfaces", "Enabled Storage Interfaces"),
   ("enabled_vendor_interfaces", "Enabled Vendor Interfaces"),
   ("extra", "Extra"),
   ("hosts", "Active host(s)"),
   ("http_methods", "Supported HTTP methods"),
   ("inspection_finished_at", "Inspection Finished At"),
   ("inspection_started_at", "Inspection Started At"),
   ("instance_info", "Instance Info"),
   ("instance_uuid", "Instance UUID"),
   ("internal_info", "Internal Info"),
   ("last_error", "Last Error"),
   ("maintenance", "Maintenance"),
   ("maintenance_reason", "Maintenance Reason"),
   ("mode", "Mode"),
   ("name", "Name"),
   ("node_uuid", "Node UUID"),
   ("power_state", "Power State"),
   ("properties", "Properties"),
   ("provision_state", "Provisioning State"),
   ("provision_updated_at", "Provision Updated At"),
   ("raid_config", "Current RAID configuration"),
   ("reservation", "Reservation"),
   ("resource_class", "Resource Class"),
   ("target_power_state", "Target Power State"),
   ("target_provision_state", "Target Provision State"),
   ("target_raid_config", "Target RAID configuration"),
   ("type", "Type"),
   ("updated_at", "Updated At"),
   ("uuid", "UUID"),
   ("volume_id", "Volume ID"),
   ("volume_type", "Driver Volume Type"),
   ("local_link_connection", "Local Link Connection"),
   ("pxe_enabled", "PXE boot enabled"),
   ("portgroup_uuid", "Portgroup UUID"),
   ("boot_interface", "Boot Interface"),
   ("console_interface", "Console Interface"),
   ("deploy_interface", "Deploy Interface"),
   ("inspect_interface", "Inspect Interface"),
   ("management_interface", "Management Interface"),
   ("network_interface", "Network Interface"),
   ("power_interface", "Power Interface"),
   ("raid_interface", "RAID Interface"),
   ("storage_interface", "Storage Interface"),
   ("vendor_interface", "Vendor Interface"),
   ("standalone_ports_supported", "Standalone Ports Supported"),
   ("physical_network", "Physical Network"),
   ("id", "ID"),
   ("connector_id", "Connector ID")]

/-- The two ways `Resource.__init__` can fail: the explicit `ValueError`
raised by `check_param_fields` (carrying the parameter name and the
unknown identifiers), and the `KeyError` escaping from `self.FIELDS[x]`
when a field id is absent from the global table. -/
inductive InitError where
  | valueError (param : String) (unknown : List String)
  | keyError (key : String)
  deriving DecidableEq, Repr

/-- Embedding of the nested `check_param_fields` helper of
`Resource.__init__`: `not_existing = set(param_fields) - set(field_ids)`,
raising `ValueError` naming the parameter and the unknown values when that
set is non-empty.  The set is modelled as the deduplicated list of
elements of `param_fields` missing from `field_ids`. -/
def check_param_fields (field_ids : List String) (param_name : String)
    (param_fields : List String) : Except InitError Unit :=
  let ne := (param_fields.filter (fun x => !(field_ids.contains x))).dedup
  if ne.isEmpty then .ok () else .error (.valueError param_name ne)

/-- Embedding of the label resolution `override_labels.get(x) or
self.FIELDS[x]`: a truthy (non-empty) override label wins; otherwise
(override absent or empty string, both falsy) the global `FIELDS` label is
used, and a missing `FIELDS` entry raises `KeyError`. -/
def resolve_label (override_labels : List (String × String)) (x : String) :
    Except InitError String :=
  match override_labels.lookup x with
  | some l =>
    if l = "" then
      match FIELDS.lookup x with
      | some d => .ok d
      | none => .error (.keyError x)
    else .ok l
  | none =>
    match FIELDS.lookup x with
    | some d => .ok d
    | none => .error (.keyError x)

/-- Resolve the labels of a list of field ids in order, stopping at the
first failure, as the list comprehension
`[override_labels.get(x) or self.FIELDS[x] for x in field_ids]` does. -/
def map_labels (override_labels : List (String × String)) :
    List String → Except InitError (List String)
  | [] => .ok []
  | x :: xs =>
    match resolve_label override_labels x with
    | .error e => .error e
    | .ok l =>
      match map_labels override_labels xs with
      | .error e => .error e
      | .ok ls => .ok (l :: ls)

/-- The four read-only views a constructed `Resource` exposes. -/
structure Resource where
  fields : List String
  labels : List String
  sort_fields : List String
  sort_labels : List String
  deriving DecidableEq, Repr

/-- The `override_labels` subset check of `__init__` lines 139-142: skipped
when the argument is omitted (`None`), otherwise `check_param_fields` on
the dict's keys. -/
def init_step1 (field_ids : List String)
    (override_labels : Option (List (String × String))) : Except InitError Unit :=
  match override_labels with
  | none => .ok ()
  | some ov => check_param_fields field_ids "override_labels" (ov.map Prod.fst)

/-- The `sort_excluded` subset check of `__init__` lines 148-151: skipped
when the argument is omitted (`None`). -/
def init_step2 (field_ids : List String)
    (sort_excluded : Option (List String)) : Except InitError Unit :=
  match sort_excluded with
  | none => .ok ()
  | some se => check_param_fields field_ids "sort_excluded" se

/-- The sort-eligible subsequence `[x for x in field_ids if x not in
sort_excluded]` of `__init__` lines 152-153. -/
def sortFields (field_ids sel : List String) : List String :=
  field_ids.filter (fun x => !(sel.contains x))

/-- Embedding of `Resource.__init__` (resource_fields.py lines 114-155),
preserving the evaluation order of the source: the `override_labels`
subset check, then the label resolution of every field id (where a
`KeyError` can escape), then the `sort_excluded` subset check, then the
sort views.  An override dict is modelled as an association list; `none`
models an omitted (None) argument. -/
def resource_init (field_ids : List String) (sort_excluded : Option (List String))
    (override_labels : Option (List (String × String))) : Except InitError Resource :=
  match init_step1 field_ids override_labels with
  | .error e => .error e
  | .ok _ =>
    match map_labels (override_labels.getD []) field_ids with
    | .error e => .error e
    | .ok labels =>
      match init_step2 field_ids sort_excluded with
      | .error e => .error e
      | .ok _ =>
        match map_labels (override_labels.getD [])
            (sortFields field_ids (sort_excluded.getD [])) with
        | .error e => .error e
        | .ok slabels =>
          .ok ⟨field_ids, labels, sortFields field_ids (sort_excluded.getD []), slabels⟩

/-- Whether an init outcome is the `ValueError` raised by the subset
validation (as opposed to success or an escaping `KeyError`). -/
def is_value_error : Except InitError Resource → Bool
  | .error (.valueError _ _) => true
  | _ => false

/-- Whether an `Except` computation succeeded. -/
def exceptOk {ε α : Type} : Except ε α → Bool
  | .ok _ => true
  | .error _ => false

/-! ## Helper lemmas: URL normalization -/

theorem head?_dropWhile_ne (p : Char → Bool) (l : List Char) (a : Char)
    (h : (l.dropWhile p).head? = some a) : p a = false := by
  have h2 := List.head?_dropWhile_not p l
  rw [h] at h2
  exact h2

theorem dropWhile_all (p : Char → Bool) (l : List Char)
    (h : ∀ a ∈ l, p a = true) : l.dropWhile p = [] := by
  have h2 := @List.dropWhile_append_of_pos Char p l [] h
  rw [List.append_nil] at h2
  simpa using h2

theorem rstripSlash_getLast? (l : List Char) :
    ¬ (rstripSlash l).getLast? = some '/' := by
  intro h
  unfold rstripSlash at h
  rw [List.getLast?_reverse] at h
  have h2 := head?_dropWhile_ne (fun c => c == '/') l.reverse '/' h
  simp at h2

theorem lstripSlash_head? (l : List Char) :
    ¬ (lstripSlash l).head? = some '/' := by
  intro h
  have h2 := head?_dropWhile_ne (fun c => c == '/') l '/' h
  simp at h2

theorem lstripSlash_replicate_append (n : Nat) (P : List Char) :
    lstripSlash (List.replicate n '/' ++ P) = lstripSlash P := by
  unfold lstripSlash
  apply List.dropWhile_append_of_pos
  intro a ha
  have h2 := List.eq_of_mem_replicate ha
  simp [h2]

theorem rstripSlash_append_replicate (x : List Char) (n : Nat) :
    rstripSlash (x ++ List.replicate n '/') = rstripSlash x := by
  unfold rstripSlash
  rw [List.reverse_append, List.reverse_replicate]
  congr 1
  apply List.dropWhile_append_of_pos
  intro a ha
  have h2 := List.eq_of_mem_replicate ha
  simp [h2]

theorem rstripSlash_replicate (n : Nat) :
    rstripSlash (List.replicate n '/') = [] := by
  unfold rstripSlash
  rw [List.reverse_replicate, dropWhile_all]
  · rfl
  · intro a ha
    have h2 := List.eq_of_mem_replicate ha
    simp [h2]

theorem afterSchemeSep_append (s : List Char) :
    ∀ (B r : List Char), afterSchemeSep B = some r →
      afterSchemeSep (B ++ s) = some (r ++ s) := by
  intro B
  induction B with
  | nil => intro r h; simp [afterSchemeSep] at h
  | cons c rest ih =>
    intro r h
    rcases rest with _ | ⟨d1, _ | ⟨d2, t⟩⟩
    · simp [afterSchemeSep] at h
    · simp [afterSchemeSep] at h
    · unfold afterSchemeSep at h
      by_cases hc : c = ':' ∧ (d1 :: d2 :: t).take 2 = ['/', '/']
      · rw [if_pos hc] at h
        simp only [List.take, List.cons.injEq] at hc
        obtain ⟨hc1, hd1, hd2, -⟩ := hc
        subst hc1; subst hd1; subst hd2
        simp only [Option.some.injEq] at h
        simp only [List.drop] at h
        subst h
        simp [afterSchemeSep, List.take, List.drop]
      · rw [if_neg hc] at h
        have h2 := ih r h
        simp only [List.cons_append]
        unfold afterSchemeSep
        rw [if_neg]
        · exact h2
        · intro hc2
          apply hc
          refine ⟨hc2.1, ?_⟩
          have h3 := hc2.2
          simp only [List.cons_append, List.take] at h3 ⊢
          exact h3

theorem urlPath_append_slashes (B r : List Char)
    (h : afterSchemeSep B = some r) (n : Nat) :
    rstripSlash (urlPath (B ++ List.replicate n '/')) = rstripSlash (urlPath B) := by
  have h2 := afterSchemeSep_append (List.replicate n '/') B r h
  unfold urlPath
  rw [h, h2]
  dsimp only
  rw [List.dropWhile_append]
  split
  · rename_i hemp
    rw [List.isEmpty_iff] at hemp
    rw [hemp]
    have h3 : (List.replicate n '/').dropWhile (fun c => !(c == '/')) =
        List.replicate n '/' := by
      cases n with
      | zero => rfl
      | succ m =>
        rw [List.replicate_succ, List.dropWhile_cons]
        simp
    rw [h3, rstripSlash_replicate]
    rfl
  · rw [rstripSlash_append_replicate]

/-! ## Helper lemmas: Resource construction -/

theorem map_labels_length (ov : List (String × String)) :
    ∀ (l ls : List String), map_labels ov l = .ok ls → ls.length = l.length := by
  intro l
  induction l with
  | nil =>
    intro ls h
    simp only [map_labels, Except.ok.injEq] at h
    rw [← h]
  | cons x xs ih =>
    intro ls h
    unfold map_labels at h
    rcases hr : resolve_label ov x with e | lab <;> rw [hr] at h
    · simp at h
    · rcases hm : map_labels ov xs with e | ls2 <;> rw [hm] at h
      · simp at h
      · simp only [Except.ok.injEq] at h
        rw [← h]
        simp [ih ls2 hm]

theorem map_labels_get (ov : List (String × String)) :
    ∀ (l ls : List String), map_labels ov l = .ok ls →
      ∀ (i : Nat) (h1 : i < l.length) (h2 : i < ls.length),
        resolve_label ov (l.get ⟨i, h1⟩) = .ok (ls.get ⟨i, h2⟩) := by
  intro l
  induction l with
  | nil =>
    intro ls h i h1 h2
    exact absurd h1 (by simp)
  | cons x xs ih =>
    intro ls h i h1 h2
    unfold map_labels at h
    rcases hr : resolve_label ov x with e | lab <;> rw [hr] at h
    · simp at h
    · rcases hm : map_labels ov xs with e | ls2 <;> rw [hm] at h
      · simp at h
      · simp only [Except.ok.injEq] at h
        subst h
        cases i with
        | zero => simpa using hr
        | succ j =>
          have h1j : j < xs.length := by simpa using h1
          have h2j : j < ls2.length := by simpa using h2
          simpa using ih ls2 hm j h1j h2j

theorem map_labels_ok_of_forall (ov : List (String × String)) :
    ∀ l : List String, (∀ x ∈ l, exceptOk (resolve_label ov x) = true) →
      ∃ ls, map_labels ov l = .ok ls := by
  intro l
  induction l with
  | nil => intro _; exact ⟨[], rfl⟩
  | cons x xs ih =>
    intro hall
    have hx := hall x (by simp)
    rcases hr : resolve_label ov x with e | lab
    · rw [hr] at hx; simp [exceptOk] at hx
    · obtain ⟨ls, hls⟩ := ih (fun y hy => hall y (by simp [hy]))
      refine ⟨lab :: ls, ?_⟩
      unfold map_labels
      rw [hr, hls]

theorem map_labels_forall_of_ok (ov : List (String × String)) :
    ∀ (l ls : List String), map_labels ov l = .ok ls →
      ∀ x ∈ l, exceptOk (resolve_label ov x) = true := by
  intro l
  induction l with
  | nil => intro ls h x hx; simp at hx
  | cons y ys ih =>
    intro ls h x hx
    unfold map_labels at h
    rcases hr : resolve_label ov y with e | lab <;> rw [hr] at h
    · simp at h
    · rcases hm : map_labels ov ys with e | ls2 <;> rw [hm] at h
      · simp at h
      · rcases List.mem_cons.mp hx with h1 | h1
        · rw [h1, hr]; rfl
        · exact ih ls2 hm x h1

theorem map_labels_error_elim (ov : List (String × String)) :
    ∀ (l : List String) (e : InitError), map_labels ov l = .error e →
      ∃ y ∈ l, resolve_label ov y = .error e := by
  intro l
  induction l with
  | nil => intro e h; simp [map_labels] at h
  | cons x xs ih =>
    intro e h
    unfold map_labels at h
    rcases hr : resolve_label ov x with e2 | lab <;> rw [hr] at h
    · simp only [Except.error.injEq] at h
      subst h
      exact ⟨x, by simp, hr⟩
    · rcases hm : map_labels ov xs with e2 | ls <;> rw [hm] at h
      · simp only [Except.error.injEq] at h
        subst h
        obtain ⟨y, hy, hres⟩ := ih e2 hm
        exact ⟨y, by simp [hy], hres⟩
      · simp at h

theorem resolve_label_error_form (ov : List (String × String)) (x : String)
    (e : InitError) (h : resolve_label ov x = .error e) : e = .keyError x := by
  unfold resolve_label at h
  split at h
  · split at h
    · split at h <;> simp_all
    · simp_all
  · split at h <;> simp_all

theorem check_param_fields_ok_iff (fids : List String) (p : String)
    (pf : List String) :
    check_param_fields fids p pf = .ok () ↔ ∀ x ∈ pf, x ∈ fids := by
  unfold check_param_fields
  dsimp only
  split
  · rename_i hemp
    rw [List.isEmpty_iff, List.dedup_eq_nil, List.filter_eq_nil_iff] at hemp
    simp only [true_iff]
    intro x hx
    have h2 := hemp x hx
    simp only [Bool.not_eq_true', Bool.not_eq_false] at h2
    exact List.elem_iff.mp h2
  · rename_i hemp
    constructor
    · intro h
      simp at h
    · intro hall
      exfalso
      apply hemp
      rw [List.isEmpty_iff, List.dedup_eq_nil, List.filter_eq_nil_iff]
      intro x hx
      simp only [Bool.not_eq_true', Bool.not_eq_false]
      exact List.elem_iff.mpr (hall x hx)

theorem check_param_fields_error (fids : List String) (p : String)
    (pf : List String) (h : ¬ ∀ x ∈ pf, x ∈ fids) :
    check_param_fields fids p pf =
      .error (.valueError p ((pf.filter (fun x => !(fids.contains x))).dedup)) := by
  unfold check_param_fields
  dsimp only
  split
  · rename_i hemp
    exfalso
    apply h
    rw [List.isEmpty_iff, List.dedup_eq_nil, List.filter_eq_nil_iff] at hemp
    intro x hx
    have h2 := hemp x hx
    simp only [Bool.not_eq_true', Bool.not_eq_false] at h2
    exact List.elem_iff.mp h2
  · rfl

theorem resource_init_ok_elim (fids : List String) (se : Option (List String))
    (ov : Option (List (String × String))) (r : Resource)
    (h : resource_init fids se ov = .ok r) :
    ∃ labels slabels,
      map_labels (ov.getD []) fids = .ok labels ∧
      map_labels (ov.getD []) (sortFields fids (se.getD [])) = .ok slabels ∧
      r = ⟨fids, labels, sortFields fids (se.getD []), slabels⟩ := by
  unfold resource_init at h
  rcases h1 : init_step1 fids ov with e | u <;> rw [h1] at h
  · simp at h
  rcases h2 : map_labels (ov.getD []) fids with e | labels <;> rw [h2] at h
  · simp at h
  rcases h3 : init_step2 fids se with e | u2 <;> rw [h3] at h
  · simp at h
  rcases h4 : map_labels (ov.getD []) (sortFields fids (se.getD [])) with e | slabels <;>
    rw [h4] at h
  · simp at h
  simp only [Except.ok.injEq] at h
  exact ⟨labels, slabels, rfl, rfl, h.symm⟩

theorem resource_init_ok_intro (fids : List String) (se : Option (List String))
    (ov : Option (List (String × String))) (labels slabels : List String)
    (h1 : init_step1 fids ov = .ok ())
    (h2 : map_labels (ov.getD []) fids = .ok labels)
    (h3 : init_step2 fids se = .ok ())
    (h4 : map_labels (ov.getD []) (sortFields fids (se.getD [])) = .ok slabels) :
    resource_init fids se ov =
      .ok ⟨fids, labels, sortFields fids (se.getD []), slabels⟩ := by
  unfold resource_init
  rw [h1, h2, h3, h4]

theorem resource_init_label_error (fids : List String) (se : Option (List String))
    (ov : Option (List (String × String))) (e : InitError)
    (h1 : init_step1 fids ov = .ok ())
    (h2 : map_labels (ov.getD []) fids = .error e) :
    resource_init fids se ov = .error e := by
  unfold resource_init
  rw [h1, h2]

theorem init_step1_ok (fids : List String) (ov : Option (List (String × String)))
    (h : ∀ k ∈ (ov.getD []).map Prod.fst, k ∈ fids) :
    init_step1 fids ov = .ok () := by
  cases ov with
  | none => rfl
  | some o =>
    unfold init_step1
    exact (check_param_fields_ok_iff fids "override_labels" (o.map Prod.fst)).mpr h

theorem init_step1_error_elim (fids : List String)
    (ov : Option (List (String × String))) (e : InitError)
    (h : init_step1 fids ov = .error e) :
    (∃ k ∈ (ov.getD []).map Prod.fst, ¬ k ∈ fids) ∧
    e = .valueError "override_labels"
      (((ov.getD []).map Prod.fst).filter (fun k => !(fids.contains k))).dedup := by
  cases ov with
  | none => simp [init_step1] at h
  | some o =>
    unfold init_step1 at h
    dsimp only at h
    by_cases hall : ∀ k ∈ o.map Prod.fst, k ∈ fids
    · rw [(check_param_fields_ok_iff fids "override_labels" (o.map Prod.fst)).mpr hall] at h
      simp at h
    · rw [check_param_fields_error fids "override_labels" (o.map Prod.fst) hall] at h
      push_neg at hall
      obtain ⟨k, hk, hknot⟩ := hall
      simp only [Except.error.injEq] at h
      exact ⟨⟨k, hk, hknot⟩, h.symm⟩

theorem init_step1_error_intro (fids : List String)
    (ov : Option (List (String × String)))
    (h : ∃ k ∈ (ov.getD []).map Prod.fst, ¬ k ∈ fids) :
    init_step1 fids ov = .error (.valueError "override_labels"
      (((ov.getD []).map Prod.fst).filter (fun k => !(fids.contains k))).dedup) := by
  cases ov with
  | none => simp at h
  | some o =>
    unfold init_step1
    apply check_param_fields_error
    intro hall
    obtain ⟨k, hk, hknot⟩ := h
    exact hknot (hall k hk)

theorem init_step2_ok (fids : List String) (se : Option (List String))
    (h : ∀ k ∈ se.getD [], k ∈ fids) :
    init_step2 fids se = .ok () := by
  cases se with
  | none => rfl
  | some s =>
    unfold init_step2
    exact (check_param_fields_ok_iff fids "sort_excluded" s).mpr h

theorem init_step2_error_elim (fids : List String) (se : Option (List String))
    (e : InitError) (h : init_step2 fids se = .error e) :
    (∃ k ∈ se.getD [], ¬ k ∈ fids) ∧
    e = .valueError "sort_excluded"
      ((se.getD []).filter (fun k => !(fids.contains k))).dedup := by
  cases se with
  | none => simp [init_step2] at h
  | some s =>
    unfold init_step2 at h
    dsimp only at h
    by_cases hall : ∀ k ∈ s, k ∈ fids
    · rw [(check_param_fields_ok_iff fids "sort_excluded" s).mpr hall] at h
      simp at h
    · rw [check_param_fields_error fids "sort_excluded" s hall] at h
      push_neg at hall
      obtain ⟨k, hk, hknot⟩ := hall
      simp only [Except.error.injEq] at h
      exact ⟨⟨k, hk, hknot⟩, h.symm⟩

theorem init_step2_error_intro (fids : List String) (se : Option (List String))
    (h : ∃ k ∈ se.getD [], ¬ k ∈ fids) :
    init_step2 fids se = .error (.valueError "sort_excluded"
      ((se.getD []).filter (fun k => !(fids.contains k))).dedup) := by
  cases se with
  | none => simp at h
  | some s =>
    unfold init_step2
    apply check_param_fields_error
    intro hall
    obtain ⟨k, hk, hknot⟩ := h
    exact hknot (hall k hk)

/-! ## Claim theorems: error mapper -/

/-- C1: for every response whose decoded body envelope is absent or
malformed (modelled as `none`) or whose `faultstring` is falsy (absent or
the empty string, even when `debuginfo` is present and non-empty), the
error mapper produces the generic message `<ReasonPhrase> (HTTP <code>)`.
The mapper `mapError` is a total Lean function, so mapping itself never
raises. -/
theorem c1_generic_message_on_falsy_faultstring (status : Nat)
    (env : Option ErrorEnvelope)
    (h : env = none ∨ ∃ e, env = some e ∧
        (e.faultstring = none ∨ e.faultstring = some "")) :
    (mapError status env).2 = genericMessage status := by
  rcases h with h | ⟨e, he, hf⟩
  · rw [h]
    rfl
  · rw [he]
    show errorMessage status (some e) = genericMessage status
    unfold errorMessage
    dsimp only
    rcases hf with hf | hf
    · rw [hf]
    · rw [hf]
      simp

/-- Witness for C1 at status 500, empty faultstring and non-empty
debuginfo: the message is the generic one, not the debug text. -/
theorem c1_witness :
    (mapError 500 (some ⟨some "", some "Traceback..."⟩)).2 =
      "HTTPInternalServerError (HTTP 500)" := by
  have h := c1_generic_message_on_falsy_faultstring 500
      (some ⟨some "", some "Traceback..."⟩)
      (Or.inr ⟨⟨some "", some "Traceback..."⟩, rfl, Or.inr rfl⟩)
  rw [h]
  rfl

/-- C3: a present, non-empty `faultstring` is the mapped error's message,
and when `debuginfo` is also present the message is the faultstring, a
newline, then the debuginfo. -/
theorem c3_faultstring_message (status : Nat) (fs : String) (h : ¬ fs = "") :
    (mapError status (some ⟨some fs, none⟩)).2 = fs ∧
    ∀ d, (mapError status (some ⟨some fs, some d⟩)).2 = fs ++ "\n" ++ d := by
  constructor
  · show errorMessage status (some ⟨some fs, none⟩) = fs
    simp [errorMessage, h]
  · intro d
    show errorMessage status (some ⟨some fs, some d⟩) = fs ++ "\n" ++ d
    simp [errorMessage, h]

/-- Witness for C3 at status 500 with faultstring `boom` and debuginfo
`trace...`: the message is `boom\ntrace...`. -/
theorem c3_witness :
    (mapError 500 (some ⟨some "boom", some "trace..."⟩)).2 = "boom\ntrace..." := by
  have h := (c3_faultstring_message 500 "boom" (by decide)).2 "trace..."
  rw [h]
  rfl

/-- C6: the error kind is selected purely from the numeric status code,
independently of the body envelope; 404, 409 and 500 map to the
not-found, conflict and internal-server-error kinds, and a status outside
the recognized table maps to the generic kind carrying the raw code. -/
theorem c6_kind_from_status_only (status : Nat) (env env2 : Option ErrorEnvelope) :
    (mapError status env).1 = (mapError status env2).1 ∧
    (mapError 404 env).1 = ErrorKind.notFound ∧
    (mapError 409 env).1 = ErrorKind.conflict ∧
    (mapError 500 env).1 = ErrorKind.internalServerError ∧
    ∀ c : Nat, ¬ c ∈ ([400, 401, 403, 404, 405, 406, 409, 413, 415, 500,
        501, 502, 503] : List Nat) → (mapError c env).1 = ErrorKind.httpError c := by
  refine ⟨rfl, rfl, rfl, rfl, ?_⟩
  intro c hc
  simp only [List.mem_cons, List.not_mem_nil, or_false, not_or] at hc
  obtain ⟨h1, h2, h3, h4, h5, h6, h7, h8, h9, h10, h11, h12, h13⟩ := hc
  show kindOf c = ErrorKind.httpError c
  unfold kindOf
  rw [if_neg h1, if_neg h2, if_neg h3, if_neg h4, if_neg h5, if_neg h6,
    if_neg h7, if_neg h8, if_neg h9, if_neg h10, if_neg h11, if_neg h12,
    if_neg h13]

/-- Witness for C6: status 599 is unrecognized and maps to the generic
kind carrying 599, whatever the body says. -/
theorem c6_witness :
    (mapError 599 (some ⟨some "boom", none⟩)).1 = ErrorKind.httpError 599 := by
  exact (c6_kind_from_status_only 599 (some ⟨some "boom", none⟩) none).2.2.2.2
    599 (by decide)

/-! ## Claim theorems: URL normalizer -/

/-- C2: for every base endpoint `B` and relative path `P`, the normalized
URL is the path component of `B` (scheme/host discarded) stripped of all
trailing slashes, one separating slash, then `P` stripped of all leading
slashes; the part before the separator does not end in a slash and the
part after it does not start with one, so exactly one slash joins them;
and the result is invariant under adding leading slashes to `P` or (for a
base carrying a scheme separator) trailing slashes to `B`. -/
theorem c2_single_joining_slash (B P : List Char) :
    make_connection_url B P = rstripSlash (urlPath B) ++ '/' :: lstripSlash P ∧
    ¬ (rstripSlash (urlPath B)).getLast? = some '/' ∧
    ¬ (lstripSlash P).head? = some '/' ∧
    (∀ n, make_connection_url B (List.replicate n '/' ++ P) =
      make_connection_url B P) ∧
    ((afterSchemeSep B).isSome = true →
      ∀ n, make_connection_url (B ++ List.replicate n '/') P =
        make_connection_url B P) := by
  refine ⟨rfl, rstripSlash_getLast? _, lstripSlash_head? _, ?_, ?_⟩
  · intro n
    unfold make_connection_url
    rw [lstripSlash_replicate_append]
  · intro hs n
    obtain ⟨r, hr⟩ := Option.isSome_iff_exists.mp hs
    unfold make_connection_url
    rw [urlPath_append_slashes B r hr n]

/-- Witness for C2: the test's endpoints: slash variants of
`http://localhost` with `/v1/resources` all normalize to `/v1/resources`. -/
theorem c2_witness :
    make_connection_url ("http://localhost".toList ++ List.replicate 3 '/')
        (List.replicate 2 '/' ++ "v1/resources".toList) =
      make_connection_url "http://localhost".toList "v1/resources".toList := by
  have h1 := (c2_single_joining_slash "http://localhost".toList
      (List.replicate 2 '/' ++ "v1/resources".toList)).2.2.2.2 (by decide) 3
  have h2 := (c2_single_joining_slash "http://localhost".toList
      "v1/resources".toList).2.2.2.1 2
  rw [h1, h2]

/-- C8 as stated is refuted: the base endpoint `http://localhost/a` has no
trailing slash and `/v1/resources` has a single leading slash, yet
normalization returns `/a/v1/resources`, not the path unchanged (the
base's own path component is prepended). -/
theorem c8_counterexample :
    ¬ ("http://localhost/a".toList).getLast? = some '/' ∧
    ("/v1/resources".toList).head? = some '/' ∧
    ¬ (("/v1/resources".toList).drop 1).head? = some '/' ∧
    ¬ make_connection_url "http://localhost/a".toList "/v1/resources".toList =
      "/v1/resources".toList := by
  decide

/-- C8 amended: normalizing an already-normalized path (single leading
slash) returns it unchanged provided the base endpoint's path component is
empty up to trailing slashes (e.g. `scheme://host` with no trailing
slash), not merely any base without a trailing slash. -/
theorem c8_idempotent_on_normalized (B P : List Char)
    (h1 : rstripSlash (urlPath B) = [])
    (h2 : P.head? = some '/')
    (h3 : ¬ (P.drop 1).head? = some '/') :
    make_connection_url B P = P := by
  rcases P with _ | ⟨c, t⟩
  · simp at h2
  · simp only [List.head?_cons, Option.some.injEq] at h2
    subst h2
    unfold make_connection_url
    rw [h1]
    simp only [List.nil_append, List.cons.injEq, true_and]
    unfold lstripSlash
    rw [List.dropWhile_cons]
    simp only [beq_self_eq_true, if_true]
    rcases t with _ | ⟨a, t2⟩
    · rfl
    · simp only [List.drop_succ_cons, List.drop_zero, List.head?_cons,
        Option.some.injEq] at h3
      rw [List.dropWhile_cons, if_neg]
      simp only [beq_iff_eq]
      exact h3

/-- Witness for C8 amended at the test's input: base `http://localhost`
(empty path component), path `/v1/resources`. -/
theorem c8_witness :
    make_connection_url "http://localhost".toList "/v1/resources".toList =
      "/v1/resources".toList := by
  exact c8_idempotent_on_normalized "http://localhost".toList
    "/v1/resources".toList (by decide) (by decide) (by decide)

/-! ## Claim theorems: Resource construction -/

/-- C5: for every successfully constructed Resource, `fields` equals the
input `field_ids` sequence in the given order, and `sort_fields` equals
`field_ids` with the `sort_excluded` identifiers removed — a filter that
preserves the original relative order and never reorders. -/
theorem c5_field_order_preserved (fids : List String)
    (se : Option (List String)) (ov : Option (List (String × String)))
    (r : Resource) (h : resource_init fids se ov = .ok r) :
    r.fields = fids ∧
    r.sort_fields = fids.filter (fun x => !((se.getD []).contains x)) := by
  obtain ⟨labels, slabels, -, -, hr⟩ := resource_init_ok_elim fids se ov r h
  rw [hr]
  exact ⟨rfl, rfl⟩

/-- Witness for C5 at the spec's example: `field_ids=['uuid','name']`,
`sort_excluded=['name']` gives `fields == ('uuid','name')` and
`sort_fields == ('uuid',)`. -/
theorem c5_witness :
    (⟨["uuid", "name"], ["UUID", "Name"], ["uuid"], ["UUID"]⟩ : Resource).fields =
      ["uuid", "name"] ∧
    (⟨["uuid", "name"], ["UUID", "Name"], ["uuid"], ["UUID"]⟩ : Resource).sort_fields =
      ["uuid"] := by
  have h := c5_field_order_preserved ["uuid", "name"] (some ["name"]) none
      ⟨["uuid", "name"], ["UUID", "Name"], ["uuid"], ["UUID"]⟩ rfl
  exact ⟨h.1, h.2.trans (by decide)⟩

/-- C10: every successfully constructed Resource has as many labels as
fields and as many sort labels as sort fields, its `sort_fields` is a
subsequence of `fields`, and duplicate identifiers in `field_ids` are
permitted and preserved in `fields`. -/
theorem c10_view_invariants (fids : List String)
    (se : Option (List String)) (ov : Option (List (String × String)))
    (r : Resource) (h : resource_init fids se ov = .ok r) :
    r.labels.length = r.fields.length ∧
    r.sort_labels.length = r.sort_fields.length ∧
    r.sort_fields.Sublist r.fields ∧
    r.fields = fids := by
  obtain ⟨labels, slabels, hl, hsl, hr⟩ := resource_init_ok_elim fids se ov r h
  subst hr
  refine ⟨map_labels_length _ _ _ hl, map_labels_length _ _ _ hsl, ?_, rfl⟩
  exact List.filter_sublist fids

/-- Witness for C10 on a duplicate field id: `['uuid','uuid']` constructs
successfully, with labels duplicated accordingly. -/
theorem c10_witness :
    (⟨["uuid", "uuid"], ["UUID", "UUID"], ["uuid", "uuid"], ["UUID", "UUID"]⟩ :
        Resource).labels.length =
      (⟨["uuid", "uuid"], ["UUID", "UUID"], ["uuid", "uuid"], ["UUID", "UUID"]⟩ :
        Resource).fields.length ∧
    (⟨["uuid", "uuid"], ["UUID", "UUID"], ["uuid", "uuid"], ["UUID", "UUID"]⟩ :
        Resource).fields = ["uuid", "uuid"] := by
  have h := c10_view_invariants ["uuid", "uuid"] none none
      ⟨["uuid", "uuid"], ["UUID", "UUID"], ["uuid", "uuid"], ["UUID", "UUID"]⟩
      rfl
  exact ⟨h.1, h.2.2.2⟩

/-- C7: the labels view of a successfully constructed Resource is
positionally parallel to `fields`, each label being the resolution
`override_labels.get(x) or FIELDS[x]` (truthy override label if given,
else the global registry's default) of the field id at the same position,
and `sort_labels` is the corresponding resolution of `sort_fields`. -/
theorem c7_labels_parallel (fids : List String)
    (se : Option (List String)) (ov : Option (List (String × String)))
    (r : Resource) (h : resource_init fids se ov = .ok r) :
    r.labels.length = r.fields.length ∧
    r.sort_labels.length = r.sort_fields.length ∧
    (∀ (i : Nat) (h1 : i < r.fields.length) (h2 : i < r.labels.length),
      resolve_label (ov.getD []) (r.fields.get ⟨i, h1⟩) =
        .ok (r.labels.get ⟨i, h2⟩)) ∧
    (∀ (i : Nat) (h1 : i < r.sort_fields.length) (h2 : i < r.sort_labels.length),
      resolve_label (ov.getD []) (r.sort_fields.get ⟨i, h1⟩) =
        .ok (r.sort_labels.get ⟨i, h2⟩)) := by
  obtain ⟨labels, slabels, hl, hsl, hr⟩ := resource_init_ok_elim fids se ov r h
  subst hr
  exact ⟨map_labels_length _ _ _ hl, map_labels_length _ _ _ hsl,
    map_labels_get _ _ _ hl, map_labels_get _ _ _ hsl⟩

/-- Witness for C7 on the driver resource's override: field `name` with
override label `Supported driver(s)` resolves to the override, at
position 0 of both views. -/
theorem c7_witness :
    resolve_label [("name", "Supported driver(s)")] "name" =
      .ok "Supported driver(s)" := by
  have h := (c7_labels_parallel ["name"] none
      (some [("name", "Supported driver(s)")])
      ⟨["name"], ["Supported driver(s)"], ["name"], ["Supported driver(s)"]⟩
      rfl).2.2.1 0 (by decide) (by decide)
  exact h

/-- C9: label resolution is `override_labels.get(x) or FIELDS[x]`: a field
id absent from the global FIELDS table makes construction fail with
`KeyError` (not the validation `ValueError`) unless the override supplies
a truthy (non-empty) label for it, in which case construction succeeds;
and an override label equal to the empty string is treated as absent, so
the default FIELDS label is used instead. -/
theorem c9_falsy_override_and_keyerror (fids sel : List String)
    (ovl : List (String × String)) (x l : String) :
    (resolve_label ovl x = .error (.keyError x) ↔
      FIELDS.lookup x = none ∧
      (ovl.lookup x = none ∨ ovl.lookup x = some "")) ∧
    (ovl.lookup x = some l → ¬ l = "" → resolve_label ovl x = .ok l) ∧
    (ovl.lookup x = some "" → resolve_label ovl x = resolve_label [] x) ∧
    ((∀ k ∈ ovl.map Prod.fst, k ∈ fids) → x ∈ fids →
      resolve_label ovl x = .error (.keyError x) →
      ∃ y ∈ fids, resource_init fids (some sel) (some ovl) =
        .error (.keyError y) ∧ resolve_label ovl y = .error (.keyError y)) ∧
    ((∀ k ∈ ovl.map Prod.fst, k ∈ fids) → (∀ k ∈ sel, k ∈ fids) →
      (∀ y ∈ fids, exceptOk (resolve_label ovl y) = true) →
      exceptOk (resource_init fids (some sel) (some ovl)) = true) := by
  refine ⟨?_, ?_, ?_, ?_, ?_⟩
  · rcases hov : ovl.lookup x with _ | lv
    · rcases hf : FIELDS.lookup x with _ | d
      · simp [resolve_label, hov, hf]
      · simp [resolve_label, hov, hf]
    · by_cases hl : lv = ""
      · subst hl
        rcases hf : FIELDS.lookup x with _ | d
        · simp [resolve_label, hov, hf]
        · simp [resolve_label, hov, hf]
      · simp [resolve_label, hov, hl]
  · intro hlk hne
    simp [resolve_label, hlk, hne]
  · intro hlk
    simp [resolve_label, hlk]
  · intro hkeys hx hres
    have h1 : init_step1 fids (some ovl) = .ok () :=
      init_step1_ok fids (some ovl) hkeys
    rcases hm : map_labels ovl fids with e | ls
    · obtain ⟨y, hy, hrese⟩ := map_labels_error_elim ovl fids e hm
      have hef := resolve_label_error_form ovl y e hrese
      subst hef
      refine ⟨y, hy, ?_, hrese⟩
      exact resource_init_label_error fids (some sel) (some ovl) _ h1 hm
    · exfalso
      have hok := map_labels_forall_of_ok ovl fids ls hm x hx
      rw [hres] at hok
      simp [exceptOk] at hok
  · intro hkeys hse hall
    have h1 : init_step1 fids (some ovl) = .ok () :=
      init_step1_ok fids (some ovl) hkeys
    obtain ⟨ls, hls⟩ := map_labels_ok_of_forall ovl fids hall
    have h3 : init_step2 fids (some sel) = .ok () :=
      init_step2_ok fids (some sel) hse
    obtain ⟨sls, hsls⟩ := map_labels_ok_of_forall ovl (sortFields fids sel)
      (fun y hy => hall y (List.mem_filter.mp hy).1)
    rw [resource_init_ok_intro fids (some sel) (some ovl) ls sls h1 hls h3 hsls]
    rfl

/-- Witness for C9: `['zzz']` (absent from FIELDS, no override) fails with
`KeyError`; `['customfield']` (absent from FIELDS) with truthy override
label `Custom` constructs successfully; and an empty-string override for
`uuid` behaves as no override at all. -/
theorem c9_witness :
    (∃ y ∈ ["zzz"], resource_init ["zzz"] (some []) (some []) =
        .error (.keyError y) ∧
      resolve_label [] y = .error (.keyError y)) ∧
    exceptOk (resource_init ["customfield"] (some [])
        (some [("customfield", "Custom")])) = true ∧
    resolve_label [("uuid", "")] "uuid" = resolve_label [] "uuid" := by
  refine ⟨?_, ?_, ?_⟩
  · exact (c9_falsy_override_and_keyerror ["zzz"] [] [] "zzz" "").2.2.2.1
      (by simp) (by simp) rfl
  · exact (c9_falsy_override_and_keyerror ["customfield"] []
      [("customfield", "Custom")] "customfield" "").2.2.2.2
      (by decide) (by simp) (by decide)
  · exact (c9_falsy_override_and_keyerror [] [] [("uuid", "")] "uuid" "").2.2.1 rfl

/-- C4 as stated is refuted: with `field_ids=['zzz']` (a field id unknown
to the global FIELDS table) and `sort_excluded=['bogus']`, the
`sort_excluded` list contains an identifier not in `field_ids`, yet
construction fails with `KeyError('zzz')` from the label resolution,
which the source evaluates before the `sort_excluded` check — not with
the validation `ValueError`. -/
theorem c4_counterexample :
    ("bogus" ∈ (["bogus"] : List String) ∧ ¬ "bogus" ∈ (["zzz"] : List String)) ∧
    is_value_error (resource_init ["zzz"] (some ["bogus"]) none) = false ∧
    resource_init ["zzz"] (some ["bogus"]) none = .error (.keyError "zzz") := by
  exact ⟨⟨by decide, by decide⟩, rfl, rfl⟩

/-- C4 amended: construction raises the validation `ValueError` if and
only if the override-label keys contain an identifier not in `field_ids`,
or every field id's label resolves (so no `KeyError` preempts the later
check) and `sort_excluded` contains an identifier not in `field_ids`; the
error names the offending parameter (`override_labels` is checked first)
and lists the unknown identifiers. -/
theorem c4_valueerror_iff (fids : List String) (se : Option (List String))
    (ov : Option (List (String × String))) :
    (is_value_error (resource_init fids se ov) = true ↔
      ((∃ k ∈ (ov.getD []).map Prod.fst, ¬ k ∈ fids) ∨
        (exceptOk (map_labels (ov.getD []) fids) = true ∧
          ∃ k ∈ se.getD [], ¬ k ∈ fids))) ∧
    ((∃ k ∈ (ov.getD []).map Prod.fst, ¬ k ∈ fids) →
      resource_init fids se ov = .error (.valueError "override_labels"
        (((ov.getD []).map Prod.fst).filter (fun k => !(fids.contains k))).dedup)) ∧
    ((¬ ∃ k ∈ (ov.getD []).map Prod.fst, ¬ k ∈ fids) →
      exceptOk (map_labels (ov.getD []) fids) = true →
      (∃ k ∈ se.getD [], ¬ k ∈ fids) →
      resource_init fids se ov = .error (.valueError "sort_excluded"
        ((se.getD []).filter (fun k => !(fids.contains k))).dedup)) := by
  have hpart2 : (∃ k ∈ (ov.getD []).map Prod.fst, ¬ k ∈ fids) →
      resource_init fids se ov = .error (.valueError "override_labels"
        (((ov.getD []).map Prod.fst).filter (fun k => !(fids.contains k))).dedup) := by
    intro hbad
    have h1 := init_step1_error_intro fids ov hbad
    unfold resource_init
    rw [h1]
  have hpart3 : (¬ ∃ k ∈ (ov.getD []).map Prod.fst, ¬ k ∈ fids) →
      exceptOk (map_labels (ov.getD []) fids) = true →
      (∃ k ∈ se.getD [], ¬ k ∈ fids) →
      resource_init fids se ov = .error (.valueError "sort_excluded"
        ((se.getD []).filter (fun k => !(fids.contains k))).dedup) := by
    intro hgood hlab hbadse
    have h1 : init_step1 fids ov = .ok () := by
      apply init_step1_ok
      intro k hk
      by_contra hkn
      exact hgood ⟨k, hk, hkn⟩
    rcases hm : map_labels (ov.getD []) fids with e | ls
    · rw [hm] at hlab
      simp [exceptOk] at hlab
    · have h2 := init_step2_error_intro fids se hbadse
      unfold resource_init
      rw [h1, hm, h2]
  refine ⟨⟨?_, ?_⟩, hpart2, hpart3⟩
  · intro hval
    rcases h1 : init_step1 fids ov with e | u
    · left
      exact (init_step1_error_elim fids ov e h1).1
    · cases u
      rcases hm : map_labels (ov.getD []) fids with e | ls
      · exfalso
        obtain ⟨y, hy, hrese⟩ := map_labels_error_elim _ fids e hm
        have hef := resolve_label_error_form _ y e hrese
        subst hef
        rw [resource_init_label_error fids se ov _ h1 hm] at hval
        simp [is_value_error] at hval
      · rcases h3 : init_step2 fids se with e | u2
        · right
          refine ⟨by simp [exceptOk, hm], (init_step2_error_elim fids se e h3).1⟩
        · cases u2
          rcases h4 : map_labels (ov.getD [])
              (sortFields fids (se.getD [])) with e | sls
          · exfalso
            obtain ⟨y, hy, hrese⟩ := map_labels_error_elim _ _ e h4
            have hef := resolve_label_error_form _ y e hrese
            subst hef
            have hinit : resource_init fids se ov = .error (.keyError y) := by
              unfold resource_init
              rw [h1, hm, h3, h4]
            rw [hinit] at hval
            simp [is_value_error] at hval
          · exfalso
            rw [resource_init_ok_intro fids se ov ls sls h1 hm h3 h4] at hval
            simp [is_value_error] at hval
  · intro hr
    rcases hr with hbad | ⟨hlab, hbadse⟩
    · rw [hpart2 hbad]
      rfl
    · by_cases hbadov : ∃ k ∈ (ov.getD []).map Prod.fst, ¬ k ∈ fids
      · rw [hpart2 hbadov]
        rfl
      · rw [hpart3 hbadov hlab hbadse]
        rfl

/-- Witness for C4 amended at the spec's example: `sort_excluded=['bogus']`
with `field_ids=['uuid']` fails with a `ValueError` naming the
`sort_excluded` parameter and the unknown identifier `bogus`. -/
theorem c4_witness :
    resource_init ["uuid"] (some ["bogus"]) none =
      .error (.valueError "sort_excluded" ["bogus"]) := by
  exact (c4_valueerror_iff ["uuid"] (some ["bogus"]) none).2.2
    (by simp) rfl ⟨"bogus", by decide, by decide⟩

end Ironic

